import Mathlib

/-!
A verification development for the permission-resolution and caching engine of
the `steve` repository (packages `accesscontrol` and `router`).

Conventions of the shallow embedding:

* Go strings are Lean `String`s; where byte streams matter (the digest input of
  `addRolesToHash`) a string contributes its character list (`String.data`).
  All concrete data in this development is ASCII, where characters and bytes
  coincide.
* The SHA-256 digest is modelled by the stream of bytes written to it: two
  digest states are equal iff their input streams are, and the hex-encoded
  digest (the cache key) is identified with that stream.  Every property below
  is about equality or inequality of digest inputs, which is exactly what the
  hex-encoded SHA-256 output preserves.
* The watch caches (`GetByIndex`, `Get`) are modelled by lists of objects held
  in an `Env`; `GetByIndex` returns the matching objects in the (arbitrary)
  order of that list, and the code sorts afterwards, as in the source.
* Fallible lookups return `Option`; the Go code's "error means empty result"
  discipline is reproduced at each use site.
-/

namespace Steve

/-! ## Router middleware (`pkg/server/router/router.go`) -/

/-- The blacklisted type strings, from `blackListTypes` in router.go. -/
def blackListTypes : List String :=
  ["management.cattle.io.authconfig",
   "management.cattle.io.catalogtemplate",
   "management.cattle.io.catalog",
   "management.cattle.io.cluster",
   "management.cattle.io.clusterroletemplatebinding",
   "management.cattle.io.feature",
   "management.cattle.io.group",
   "management.cattle.io.kontainerdriver",
   "management.cattle.io.node",
   "management.cattle.io.nodedriver",
   "management.cattle.io.nodepool",
   "management.cattle.io.nodetemplate",
   "management.cattle.io.project",
   "management.cattle.io.projectroletemplatebinding",
   "management.cattle.io.roletemplate",
   "management.cattle.io.setting",
   "management.cattle.io.user",
   "management.cattle.io.token",
   "management.cattle.io.globalrole",
   "management.cattle.io.globalrolebinding",
   "management.cattle.io.podsecuritypolicytemplate"]

/-- `hasPrefixChars s t` is true when `t` is an initial segment of `s`
(the character-list form of Go `strings.HasPrefix s t`). -/
def hasPrefixChars : List Char → List Char → Bool
  | _, [] => true
  | [], _ :: _ => false
  | a :: as, b :: bs => a == b && hasPrefixChars as bs

/-- `containsSub s t` is true when `t` occurs contiguously inside `s`. -/
def containsSub : List Char → List Char → Bool
  | [], t => t.isEmpty
  | a :: as, t => hasPrefixChars (a :: as) t || containsSub as t

/-- Go `strings.Contains s t`. -/
def strContains (s t : String) : Bool :=
  containsSub s.data t.data

/-- Outcome of the middleware for one request: either the wrapped handler is
invoked (`pass`) or an HTTP error with the given status is written and the
handler is never reached (`reject`, carrying the blacklist entry reported). -/
inductive RouteDecision where
  | pass
  | reject (status : Nat) (typ : String)
deriving DecidableEq, Repr

/-- `rejectIfBlackListed` from router.go, as a function of the request's
`{type}` mux variable (if any) and the HTTP method: pass when there is no
type variable; pass every GET; otherwise reject with status 400 at the first
blacklisted string contained in the type, and pass when none matches. -/
def rejectIfBlackListed (typeVar : Option String) (method : String) : RouteDecision :=
  match typeVar with
  | none => .pass
  | some typ =>
    if method = "GET" then .pass
    else
      match blackListTypes.find? (fun t => strContains typ t) with
      | some t => .reject 400 t
      | none => .pass

/-- C9: a request with no `{type}` path variable is admitted; every GET request
is admitted regardless of type; and a non-GET request whose `{type}` variable
contains some blacklisted type string as a substring is answered with HTTP 400
(so it never reaches the wrapped handler, which only `pass` invokes). -/
theorem rejectIfBlackListed_spec :
    (∀ method, rejectIfBlackListed none method = .pass) ∧
    (∀ typ, rejectIfBlackListed (some typ) "GET" = .pass) ∧
    (∀ typ method, method ≠ "GET" →
      (∃ t ∈ blackListTypes, strContains typ t = true) →
      ∃ t ∈ blackListTypes, strContains typ t = true ∧
        rejectIfBlackListed (some typ) method = .reject 400 t) := by
  refine ⟨fun method => rfl, fun typ => by simp [rejectIfBlackListed], ?_⟩
  intro typ method hm hex
  have hsome : (blackListTypes.find? (fun t => strContains typ t)).isSome := by
    rw [List.find?_isSome]
    obtain ⟨t, ht, hc⟩ := hex
    exact ⟨t, ht, hc⟩
  obtain ⟨t, hfind⟩ := Option.isSome_iff_exists.mp hsome
  refine ⟨t, List.mem_of_find?_eq_some hfind, List.find?_some hfind, ?_⟩
  simp only [rejectIfBlackListed, if_neg hm, hfind]

/-- Witness for C9 at concrete requests. -/
theorem rejectIfBlackListed_spec_witness :
    rejectIfBlackListed none "POST" = .pass ∧
    rejectIfBlackListed (some "management.cattle.io.user") "GET" = .pass ∧
    ("POST" ≠ "GET" ∧ (∃ t ∈ blackListTypes, strContains "management.cattle.io.user" t = true)) ∧
    (∃ t ∈ blackListTypes, strContains "management.cattle.io.user" t = true ∧
      rejectIfBlackListed (some "management.cattle.io.user") "POST" = .reject 400 t) :=
  ⟨rejectIfBlackListed_spec.1 "POST",
   rejectIfBlackListed_spec.2.1 "management.cattle.io.user",
   ⟨by decide, ⟨"management.cattle.io.user", by decide, by decide⟩⟩,
   rejectIfBlackListed_spec.2.2 "management.cattle.io.user" "POST" (by decide)
     ⟨"management.cattle.io.user", by decide, by decide⟩⟩

/-! ## RBAC data model (`pkg/accesscontrol`) -/

/-- The RBAC API group constant `rbacGroup` from the source. -/
def rbacGroup : String := "rbac.authorization.k8s.io"

/-- The wildcard constant `All` from the source. -/
def All : String := "*"

/-- A binding subject `(apiGroup, kind, name, namespace?)`.  The Go field
`Namespace` is spelled `ns` because `namespace` is a Lean keyword. -/
structure Subject where
  apiGroup : String
  kind : String
  name : String
  ns : String
deriving DecidableEq, Repr

/-- A role reference: kind (`"Role"` or `"ClusterRole"`) and name. -/
structure RoleRef where
  kind : String
  name : String
deriving DecidableEq, Repr

/-- A raw policy rule, cartesian-expanded during resolution. -/
structure PolicyRule where
  apiGroups : List String
  resources : List String
  resourceNames : List String
  verbs : List String
deriving DecidableEq, Repr

/-- A cluster-scoped role: name and rules. -/
structure ClusterRole where
  name : String
  rules : List PolicyRule
deriving DecidableEq, Repr

/-- A namespaced role: namespace, name and rules. -/
structure Role where
  ns : String
  name : String
  rules : List PolicyRule
deriving DecidableEq, Repr

/-- A ClusterRoleBinding: object name, subjects and role reference. -/
structure ClusterRoleBinding where
  name : String
  subjects : List Subject
  roleRef : RoleRef
deriving DecidableEq, Repr

/-- A RoleBinding: object name, namespace, UID, subjects and role reference. -/
structure RoleBinding where
  name : String
  ns : String
  uid : String
  subjects : List Subject
  roleRef : RoleRef
deriving DecidableEq, Repr

/-- The in-memory watch-cache state the policyRuleIndex reads: the role and
binding objects, plus the role-revision oracle.  `revision nsp nm` is the
token tracked by the roleRevisionIndex for role `nm` in namespace `nsp`
(empty namespace for cluster roles); per the spec an unknown role yields the
empty token, which is just a particular choice of this function.  `GetByIndex`
returns matching objects in the (arbitrary, unordered) order of these lists. -/
structure Env where
  clusterRoles : List ClusterRole
  roles : List Role
  crbs : List ClusterRoleBinding
  rbs : List RoleBinding
  revision : String → String → String

/-! ## Secondary indexers (`clusterRoleBindingBySubjectIndexer`, `roleBindingBySubject`) -/

/-- The index keys one subject of a ClusterRoleBinding contributes, for a
policyRuleIndex of the given subject `kind` (`"User"` or `"Group"`): the loop
body of `clusterRoleBindingBySubjectIndexer`.  `roleRefKind` is the binding's
`RoleRef.Kind`. -/
def crbSubjectKeys (kind roleRefKind : String) (s : Subject) : List String :=
  if s.apiGroup = rbacGroup ∧ s.kind = kind ∧ roleRefKind = "ClusterRole" then
    [s.name]
  else if s.apiGroup = "" ∧ kind = "User" ∧ s.kind = "ServiceAccount" ∧ s.ns ≠ "" ∧
      roleRefKind = "ClusterRole" then
    ["serviceaccount:" ++ s.ns ++ ":" ++ s.name]
  else []

/-- The index keys one subject of a RoleBinding contributes: the loop body of
`roleBindingBySubject` (no restriction on the binding's RoleRef kind). -/
def rbSubjectKeys (kind : String) (s : Subject) : List String :=
  if s.apiGroup = rbacGroup ∧ s.kind = kind then
    [s.name]
  else if s.apiGroup = "" ∧ kind = "User" ∧ s.kind = "ServiceAccount" ∧ s.ns ≠ "" then
    ["serviceaccount:" ++ s.ns ++ ":" ++ s.name]
  else []

/-- `clusterRoleBindingBySubjectIndexer` from the source: all index keys of a
ClusterRoleBinding, over its subjects. -/
def clusterRoleBindingBySubjectIndexer (kind : String) (crb : ClusterRoleBinding) : List String :=
  crb.subjects.flatMap (crbSubjectKeys kind crb.roleRef.kind)

/-- `roleBindingBySubject` from the source: all index keys of a RoleBinding. -/
def roleBindingBySubject (kind : String) (rb : RoleBinding) : List String :=
  rb.subjects.flatMap (rbSubjectKeys kind)

/-- `getClusterRoleBindings`: query the index (modelled as a filter over the
unordered cache contents), then sort by binding name as the source does with
`sort.Slice`.  `insertionSort` with `≤` produces a sorted permutation, which
is the contract `sort.Slice` provides. -/
def getClusterRoleBindings (env : Env) (kind subjectName : String) : List ClusterRoleBinding :=
  List.insertionSort (fun a b => a.name ≤ b.name)
    (env.crbs.filter (fun crb => (clusterRoleBindingBySubjectIndexer kind crb).contains subjectName))

/-- `getRoleBindings`: query the index, then sort by binding UID. -/
def getRoleBindings (env : Env) (kind subjectName : String) : List RoleBinding :=
  List.insertionSort (fun a b => a.uid ≤ b.uid)
    (env.rbs.filter (fun rb => (roleBindingBySubject kind rb).contains subjectName))

/-! ## Rule resolution (`getRules`, `addAccess`, `get`) -/

/-- `getRules` from the source: resolve a RoleRef to its rules.  A failed
lookup (role not found) and an unrecognized RoleRef kind both yield the empty
rule list; no error is surfaced (the function is total). -/
def getRules (env : Env) (ns : String) (roleRef : RoleRef) : List PolicyRule :=
  if roleRef.kind = "ClusterRole" then
    match env.clusterRoles.find? (fun cr => cr.name == roleRef.name) with
    | some cr => cr.rules
    | none => []
  else if roleRef.kind = "Role" then
    match env.roles.find? (fun r => r.ns == ns && r.name == roleRef.name) with
    | some r => r.rules
    | none => []
  else []

/-- `(group, resource)` pair, `schema.GroupResource`. -/
structure GroupResource where
  group : String
  resource : String
deriving DecidableEq, Repr

/-- An `Access` value: namespace and resource name (`"*"` denotes wildcard). -/
structure Access where
  ns : String
  resourceName : String
deriving DecidableEq, Repr

/-- One `accessSet.Add` call: verb, group/resource, and Access value. -/
structure Grant where
  verb : String
  gr : GroupResource
  access : Access
deriving DecidableEq, Repr

/-- The `ResourceNames` wildcard default inside `addAccess`: an empty list is
replaced by the single name `"*"`. -/
def expandNames (names : List String) : List String :=
  if names.isEmpty then [All] else names

/-- The cartesian expansion of one rule inside `addAccess`: for each API
group, resource, resource name (wildcard-defaulted) and verb, one `Add` call
whose Access carries the given namespace. -/
def expandRule (ns : String) (rule : PolicyRule) : List Grant :=
  rule.apiGroups.flatMap fun group =>
    rule.resources.flatMap fun resource =>
      (expandNames rule.resourceNames).flatMap fun resourceName =>
        rule.verbs.map fun verb =>
          { verb := verb
            gr := { group := group, resource := resource }
            access := { ns := ns, resourceName := resourceName } }

/-- Modelled from the spec: the `AccessSet` type and its `Add`/`Merge`
operations live in an accessset source file that is not under src/; following
spec section 4.1 an AccessSet is its `ID` plus the set of grants added to it,
`Add` is idempotent insertion, and `Merge` unions the other set's grants into
the receiver.  The `ID` is the cache key the set was stored under, which this
development models as the digest input stream (a character list), empty until
cached.  Grants are kept as a duplicate-free list in insertion order. -/
structure AccessSet where
  ID : List Char := []
  grants : List Grant := []
deriving DecidableEq, Repr

/-- Modelled from the spec: `AccessSet.Add` — idempotent insertion. -/
def AccessSet.add (a : AccessSet) (g : Grant) : AccessSet :=
  if g ∈ a.grants then a else { a with grants := a.grants ++ [g] }

/-- Add a list of grants in order. -/
def AccessSet.addGrants (a : AccessSet) (gs : List Grant) : AccessSet :=
  gs.foldl AccessSet.add a

/-- Modelled from the spec: `AccessSet.Merge` — union the other set's grants
into the receiver. -/
def AccessSet.merge (a b : AccessSet) : AccessSet :=
  a.addGrants b.grants

/-- The empty AccessSet `&AccessSet{}`. -/
def emptyAccessSet : AccessSet := {}

/-- The list of `Add` calls `addAccess` issues for one binding: every rule of
the resolved role, cartesian-expanded with the binding's namespace. -/
def addAccessGrants (env : Env) (ns : String) (roleRef : RoleRef) : List Grant :=
  (getRules env ns roleRef).flatMap (expandRule ns)

/-- `addAccess` from the source: add all expanded grants of the referenced
role to the AccessSet. -/
def addAccess (env : Env) (accessSet : AccessSet) (ns : String) (roleRef : RoleRef) : AccessSet :=
  accessSet.addGrants (addAccessGrants env ns roleRef)

/-- `policyRuleIndex.get` from the source: start from `&AccessSet{}`, add the
grants of every matching RoleBinding under the binding's namespace, then the
grants of every matching ClusterRoleBinding under namespace `"*"`.  The Go
function always returns a freshly allocated non-nil pointer; the model is a
total function into `AccessSet`. -/
def policyGet (env : Env) (kind subjectName : String) : AccessSet :=
  let result := (getRoleBindings env kind subjectName).foldl
    (fun acc rb => addAccess env acc rb.ns rb.roleRef) emptyAccessSet
  (getClusterRoleBindings env kind subjectName).foldl
    (fun acc crb => addAccess env acc All crb.roleRef) result

/-! ## Digest input (`addRolesToHash`, `CacheKey`) -/

/-- The NUL separator byte written after each binding's record. -/
def nul : Char := Char.ofNat 0

/-- The bytes one ClusterRoleBinding writes to the digest:
`Write(name); Write(revision); Write(null)`. -/
def crbRecordBytes (name revision : String) : List Char :=
  name.data ++ revision.data ++ [nul]

/-- The bytes one RoleBinding writes to the digest:
`Write(name); Write(ns); Write(revision); Write(null)`. -/
def rbRecordBytes (name ns revision : String) : List Char :=
  name.data ++ ns.data ++ revision.data ++ [nul]

/-- The revision used for a RoleBinding's RoleRef: a cluster-role reference is
looked up with the empty namespace, a role reference with the binding's
namespace. -/
def rbRevisionOf (env : Env) (rb : RoleBinding) : String :=
  if rb.roleRef.kind = "ClusterRole" then env.revision "" rb.roleRef.name
  else env.revision rb.ns rb.roleRef.name

/-- `addRolesToHash` from the source, as the byte stream it writes to the
digest: all matching ClusterRoleBindings first (sorted by binding name), then
all matching RoleBindings (sorted by UID), each contributing its NUL-terminated
record. -/
def addRolesToHashBytes (env : Env) (kind subjectName : String) : List Char :=
  ((getClusterRoleBindings env kind subjectName).flatMap fun crb =>
    crbRecordBytes crb.roleRef.name (env.revision "" crb.roleRef.name)) ++
  ((getRoleBindings env kind subjectName).flatMap fun rb =>
    rbRecordBytes rb.roleRef.name rb.ns (rbRevisionOf env rb))

/-- An identity: principal name and group list, `user.Info`. -/
structure UserInfo where
  name : String
  groups : List String
deriving DecidableEq, Repr

/-- `AccessStore.CacheKey` (access_store.go lines 197-212), as the digest
input stream; the hex-encoded SHA-256 output is modelled by the stream itself.
The source builds a sorted copy of `user.GetGroups()` named `groups`, but
(a) allocates it with `make([]string, 0, len(groupBase))` so `copy` copies
nothing, and (b) iterates `user.GetGroups()` rather than `groups` in the hash
loop; the sorted copy is therefore dead code and the groups are hashed in
presentation order, which is what this definition reproduces. -/
def cacheKeyBytes (env : Env) (u : UserInfo) : List Char :=
  addRolesToHashBytes env "User" u.name ++
    u.groups.flatMap (fun group => addRolesToHashBytes env "Group" group)

/-- The merged AccessSet computed on a cache miss (or with caching disabled):
`users.get(name)` merged with `groups.get(g)` for each group in order. -/
def computeAccessSet (env : Env) (u : UserInfo) : AccessSet :=
  u.groups.foldl (fun acc group => acc.merge (policyGet env "Group" group))
    (policyGet env "User" u.name)

/-! ## AccessStore state: LRU cache and invalidation map

The `LRUExpireCache` of the k8s library is modelled by an association list of
`(key, value, ttl)` entries; `Add` replaces any entry under the same key,
`Remove` deletes, `Get` finds.  Capacity eviction and clock-based expiry are
outside the single-call scope of the claims and are not modelled; the stored
TTL argument is kept so that "stored with a 24-hour TTL" is visible.  Cached
values have dynamic type `interface\x7b\x7d` in Go; `CacheVal.other` stands
for any stored value that is not an `*AccessSet`. -/

/-- A cache key (the digest input stream standing for the hex digest). -/
abbrev CKey := List Char

/-- A value stored in the LRU cache. -/
inductive CacheVal where
  | accessSet (a : AccessSet)
  | other
deriving DecidableEq, Repr

/-- `LRUExpireCache.Get`. -/
def cacheGet : List (CKey × CacheVal × Nat) → CKey → Option (CacheVal × Nat)
  | [], _ => none
  | e :: rest, k => if e.1 = k then some e.2 else cacheGet rest k

/-- `LRUExpireCache.Remove`. -/
def cacheRemove : List (CKey × CacheVal × Nat) → CKey → List (CKey × CacheVal × Nat)
  | [], _ => []
  | e :: rest, k => if e.1 = k then cacheRemove rest k else e :: cacheRemove rest k

/-- `LRUExpireCache.Add` with a ttl argument: replaces any entry under `k`. -/
def cacheAdd (c : List (CKey × CacheVal × Nat)) (k : CKey) (v : CacheVal) (ttl : Nat) :
    List (CKey × CacheVal × Nat) :=
  (k, v, ttl) :: cacheRemove c k

/-- Go map read `userKeys[name]`. -/
def mapGet : List (String × CKey) → String → Option CKey
  | [], _ => none
  | e :: rest, n => if e.1 = n then some e.2 else mapGet rest n

/-- Go map write `userKeys[name] = k`. -/
def mapSet (m : List (String × CKey)) (n : String) (k : CKey) : List (String × CKey) :=
  (n, k) :: m.filter (fun e => e.1 ≠ n)

/-- 24 hours in nanoseconds (`24*time.Hour` as a Go `time.Duration`). -/
def hours24 : Nat := 86400000000000

/-- The mutable state of an `AccessStore` with caching enabled: the LRU cache
and the mutex-guarded invalidation map `userKeys`. -/
structure StoreState where
  cache : List (CKey × CacheVal × Nat)
  userKeys : List (String × CKey)
deriving DecidableEq, Repr

/-- `AccessStore.AccessFor` (access_store.go lines 167-195) with caching
enabled, as one atomic step on the store state (the claims' single-call view;
the mutex serializes the map update and eviction).  On a hit the stored value
is returned through the type assertion `val.(*AccessSet)` whose failure yields
the nil pointer, modelled by `none`.  On a miss the merged AccessSet is
computed, its ID stamped with the key, the previous key's entry evicted when
different, the new key recorded, and the result stored with the 24-hour TTL. -/
def accessForCached (env : Env) (st : StoreState) (u : UserInfo) :
    Option AccessSet × StoreState :=
  let cacheKey := cacheKeyBytes env u
  match cacheGet st.cache cacheKey with
  | some (CacheVal.accessSet a, _) => (some a, st)
  | some (CacheVal.other, _) => (none, st)
  | none =>
    let result0 := computeAccessSet env u
    let result : AccessSet := { result0 with ID := cacheKey }
    let cache1 :=
      match mapGet st.userKeys u.name with
      | some prevKey => if prevKey = cacheKey then st.cache else cacheRemove st.cache prevKey
      | none => st.cache
    (some result,
      { cache := cacheAdd cache1 cacheKey (CacheVal.accessSet result) hours24
        userKeys := mapSet st.userKeys u.name cacheKey })

/-! ## Helper lemmas -/

/-- Membership in the cartesian expansion of a rule determines the Access
namespace and constrains the resource name. -/
theorem mem_expandRule {ns : String} {rule : PolicyRule} {g : Grant}
    (h : g ∈ expandRule ns rule) :
    g.access.ns = ns ∧ g.access.resourceName ∈ expandNames rule.resourceNames := by
  simp only [expandRule, List.mem_flatMap, List.mem_map] at h
  obtain ⟨group, -, resource, -, resourceName, hrn, verb, -, hg⟩ := h
  subst hg
  exact ⟨rfl, hrn⟩

/-- A fold leaves its accumulator unchanged when every step does. -/
theorem foldl_id_of_mem {α β : Type} (f : β → α → β) (l : List α) (b : β)
    (h : ∀ a ∈ l, ∀ acc, f acc a = acc) : l.foldl f b = b := by
  induction l generalizing b with
  | nil => rfl
  | cons a as ih =>
    rw [List.foldl_cons, h a (List.mem_cons_self a as)]
    exact ih b (fun x hx acc => h x (List.mem_cons_of_mem a hx) acc)

/-- `getRules` on a RoleRef kind that is neither `Role` nor `ClusterRole`. -/
theorem getRules_other_kind (env : Env) (ns : String) (roleRef : RoleRef)
    (h1 : roleRef.kind ≠ "ClusterRole") (h2 : roleRef.kind ≠ "Role") :
    getRules env ns roleRef = [] := by
  simp [getRules, h1, h2]

/-- `addAccess` with no rules adds nothing. -/
theorem addAccess_of_getRules_nil (env : Env) (acc : AccessSet) (ns : String)
    (roleRef : RoleRef) (h : getRules env ns roleRef = []) :
    addAccess env acc ns roleRef = acc := by
  simp [addAccess, addAccessGrants, h, AccessSet.addGrants]

/-! ## C6: wildcard expansion and grant namespaces -/

/-- C6: a rule with empty `ResourceNames` is expanded with the single wildcard
name `"*"`; every grant `addAccess` issues for a ClusterRoleBinding (which
`get` resolves under namespace `"*"`) carries namespace `"*"`, and every grant
issued for a RoleBinding carries that binding's namespace. -/
theorem addAccess_wildcard_and_namespace :
    (∀ (ns : String) (rule : PolicyRule), rule.resourceNames = [] →
      ∀ g ∈ expandRule ns rule, g.access.resourceName = All) ∧
    (∀ (env : Env) (roleRef : RoleRef),
      ∀ g ∈ addAccessGrants env All roleRef, g.access.ns = All) ∧
    (∀ (env : Env) (rb : RoleBinding),
      ∀ g ∈ addAccessGrants env rb.ns rb.roleRef, g.access.ns = rb.ns) := by
  have hns : ∀ (env : Env) (ns : String) (roleRef : RoleRef),
      ∀ g ∈ addAccessGrants env ns roleRef, g.access.ns = ns := by
    intro env ns roleRef g hg
    simp only [addAccessGrants, List.mem_flatMap] at hg
    obtain ⟨rule, -, hmem⟩ := hg
    exact (mem_expandRule hmem).1
  refine ⟨?_, fun env roleRef => hns env All roleRef, fun env rb => hns env rb.ns rb.roleRef⟩
  intro ns rule hempty g hg
  have h := (mem_expandRule hg).2
  rw [hempty] at h
  simpa [expandNames] using h

/-- Concrete environment used by the C6 witness: one ClusterRole `cr` with a
single rule whose `ResourceNames` is empty, and one namespaced Role. -/
def envC6 : Env :=
  { clusterRoles :=
      [{ name := "cr"
         rules := [{ apiGroups := ["apps"], resources := ["deployments"],
                     resourceNames := [], verbs := ["get"] }] }]
    roles :=
      [{ ns := "team", name := "viewer"
         rules := [{ apiGroups := [""], resources := ["pods"],
                     resourceNames := [], verbs := ["list"] }] }]
    crbs := []
    rbs := []
    revision := fun _ _ => "" }

/-- The rule of `envC6`'s ClusterRole, used by the C6 witness. -/
def ruleC6 : PolicyRule :=
  { apiGroups := ["apps"], resources := ["deployments"], resourceNames := [], verbs := ["get"] }

/-- A concrete grant produced for a namespaced binding, used by the C6 witness. -/
def grantTeam : Grant :=
  { verb := "get", gr := { group := "apps", resource := "deployments" }
    access := { ns := "team", resourceName := "*" } }

/-- A concrete grant produced for a ClusterRoleBinding, used by the C6 witness. -/
def grantStar : Grant :=
  { verb := "get", gr := { group := "apps", resource := "deployments" }
    access := { ns := "*", resourceName := "*" } }

/-- A concrete grant produced for the Role `viewer`, used by the C6 witness. -/
def grantViewer : Grant :=
  { verb := "list", gr := { group := "", resource := "pods" }
    access := { ns := "team", resourceName := "*" } }

/-- A concrete RoleBinding in namespace `team`, used by the C6 witness. -/
def rbC6 : RoleBinding :=
  { name := "rb1", ns := "team", uid := "u1", subjects := []
    roleRef := { kind := "Role", name := "viewer" } }

/-- Witness for C6 at concrete grants. -/
theorem addAccess_wildcard_and_namespace_witness :
    (ruleC6.resourceNames = [] ∧ grantTeam ∈ expandRule "team" ruleC6 ∧
      grantTeam.access.resourceName = All) ∧
    (grantStar ∈ addAccessGrants envC6 All { kind := "ClusterRole", name := "cr" } ∧
      grantStar.access.ns = All) ∧
    (grantViewer ∈ addAccessGrants envC6 rbC6.ns rbC6.roleRef ∧
      grantViewer.access.ns = rbC6.ns) :=
  ⟨⟨rfl, by decide,
    addAccess_wildcard_and_namespace.1 "team" ruleC6 rfl grantTeam (by decide)⟩,
   ⟨by decide,
    addAccess_wildcard_and_namespace.2.1 envC6 { kind := "ClusterRole", name := "cr" }
      grantStar (by decide)⟩,
   ⟨by decide,
    addAccess_wildcard_and_namespace.2.2 envC6 rbC6 grantViewer (by decide)⟩⟩

/-! ## C8: dangling RoleRef contributes nothing, without error -/

/-- C8: when the referenced ClusterRole or Role is not found in its cache,
`getRules` returns the empty rule list, so `addAccess` leaves the AccessSet
unchanged (the binding contributes no grants); `getRules` is a total function,
so no error is surfaced to the caller. -/
theorem getRules_missing_role (env : Env) (ns : String) (roleRef : RoleRef)
    (acc : AccessSet)
    (h : (roleRef.kind = "ClusterRole" ∧
            env.clusterRoles.find? (fun cr => cr.name == roleRef.name) = none) ∨
         (roleRef.kind = "Role" ∧
            env.roles.find? (fun r => r.ns == ns && r.name == roleRef.name) = none)) :
    getRules env ns roleRef = [] ∧ addAccess env acc ns roleRef = acc := by
  have hrules : getRules env ns roleRef = [] := by
    rcases h with ⟨hk, hf⟩ | ⟨hk, hf⟩ <;> simp [getRules, hk, hf]
  exact ⟨hrules, addAccess_of_getRules_nil env acc ns roleRef hrules⟩

/-- Witness for C8: a RoleBinding referencing a Role absent from the cache. -/
theorem getRules_missing_role_witness :
    ((({ kind := "Role", name := "ghost" } : RoleRef).kind = "ClusterRole" ∧
        envC6.clusterRoles.find? (fun cr => cr.name == "ghost") = none) ∨
      (({ kind := "Role", name := "ghost" } : RoleRef).kind = "Role" ∧
        envC6.roles.find? (fun r => r.ns == "team" && r.name == "ghost") = none)) ∧
    getRules envC6 "team" { kind := "Role", name := "ghost" } = [] ∧
    addAccess envC6 emptyAccessSet "team" { kind := "Role", name := "ghost" } = emptyAccessSet :=
  ⟨Or.inr ⟨rfl, by decide⟩,
   getRules_missing_role envC6 "team" { kind := "Role", name := "ghost" } emptyAccessSet
     (Or.inr ⟨rfl, by decide⟩)⟩

/-! ## C10: `get` yields an empty AccessSet when nothing can contribute -/

/-- C10: `policyRuleIndex.get` is a total function into `AccessSet` (the Go
function returns the freshly allocated `&AccessSet\x7b\x7d`, never nil and
never an error), and a subject matching no bindings, or only bindings whose
RoleRef kind is neither `Role` nor `ClusterRole`, yields the empty AccessSet. -/
theorem policyGet_empty (env : Env) (kind subjectName : String)
    (hrb : ∀ rb ∈ getRoleBindings env kind subjectName,
      rb.roleRef.kind ≠ "Role" ∧ rb.roleRef.kind ≠ "ClusterRole")
    (hcrb : ∀ crb ∈ getClusterRoleBindings env kind subjectName,
      crb.roleRef.kind ≠ "Role" ∧ crb.roleRef.kind ≠ "ClusterRole") :
    policyGet env kind subjectName = emptyAccessSet := by
  unfold policyGet
  have h1 : (getRoleBindings env kind subjectName).foldl
      (fun acc rb => addAccess env acc rb.ns rb.roleRef) emptyAccessSet = emptyAccessSet := by
    refine foldl_id_of_mem _ _ _ (fun rb hrbmem acc => ?_)
    exact addAccess_of_getRules_nil env acc rb.ns rb.roleRef
      (getRules_other_kind env rb.ns rb.roleRef (hrb rb hrbmem).2 (hrb rb hrbmem).1)
  rw [h1]
  refine foldl_id_of_mem _ _ _ (fun crb hcrbmem acc => ?_)
  exact addAccess_of_getRules_nil env acc All crb.roleRef
    (getRules_other_kind env All crb.roleRef (hcrb crb hcrbmem).2 (hcrb crb hcrbmem).1)

/-- Concrete environment for the C10 witness: a RoleBinding for `alice` whose
RoleRef kind is an unrecognized string. -/
def envC10 : Env :=
  { clusterRoles := [{ name := "cr", rules := [] }]
    roles := []
    crbs := []
    rbs := [{ name := "rb-weird", ns := "team", uid := "uid-1"
              subjects := [{ apiGroup := rbacGroup, kind := "User", name := "alice", ns := "" }]
              roleRef := { kind := "TemplateRole", name := "cr" } }]
    revision := fun _ _ => "" }

/-- Witness for C10: `alice` matches one binding with an unrecognized RoleRef
kind and gets the empty AccessSet; `nobody` matches no binding at all. -/
theorem policyGet_empty_witness :
    (∀ rb ∈ getRoleBindings envC10 "User" "alice",
      rb.roleRef.kind ≠ "Role" ∧ rb.roleRef.kind ≠ "ClusterRole") ∧
    (∀ crb ∈ getClusterRoleBindings envC10 "User" "alice",
      crb.roleRef.kind ≠ "Role" ∧ crb.roleRef.kind ≠ "ClusterRole") ∧
    policyGet envC10 "User" "alice" = emptyAccessSet ∧
    policyGet envC10 "User" "nobody" = emptyAccessSet :=
  ⟨by decide, by decide,
   policyGet_empty envC10 "User" "alice" (by decide) (by decide),
   policyGet_empty envC10 "User" "nobody" (by decide) (by decide)⟩

/-! ## C7: service-account subject indexing -/

/-- A ClusterRoleBinding whose RoleRef kind is `Role`, carrying a
ServiceAccount subject with empty API group and non-empty namespace. -/
def crbRoleKind : ClusterRoleBinding :=
  { name := "crb-sa"
    subjects := [{ apiGroup := "", kind := "ServiceAccount", name := "sa", ns := "team" }]
    roleRef := { kind := "Role", name := "r" } }

/-- Counterexample to C7 as stated: `clusterRoleBindingBySubjectIndexer`
indexes a ServiceAccount subject only when the binding's RoleRef kind is
`ClusterRole`; for `crbRoleKind` (RoleRef kind `Role`) the subject with empty
API group, namespace `team` and name `sa` is indexed under no name at all, in
particular not under `serviceaccount:team:sa`. -/
theorem serviceaccount_crb_not_indexed :
    clusterRoleBindingBySubjectIndexer "User" crbRoleKind = [] ∧
    "serviceaccount:team:sa" ∉ clusterRoleBindingBySubjectIndexer "User" crbRoleKind := by
  decide

/-- C7 (amended): a binding subject of kind ServiceAccount with empty API
group, non-empty namespace `ns` and name `sa` contributes, in the User-kind
index, exactly the synthetic name `serviceaccount:ns:sa` — unconditionally for
RoleBindings, and for ClusterRoleBindings only when the binding's RoleRef kind
is `ClusterRole` (otherwise no name at all) — and the Group-kind index never
indexes ServiceAccount subjects. -/
theorem serviceaccount_subject_keys :
    (∀ (roleRefKind : String) (s : Subject),
      s.apiGroup = "" → s.kind = "ServiceAccount" → s.ns ≠ "" →
      rbSubjectKeys "User" s = ["serviceaccount:" ++ s.ns ++ ":" ++ s.name] ∧
      crbSubjectKeys "User" roleRefKind s =
        (if roleRefKind = "ClusterRole"
         then ["serviceaccount:" ++ s.ns ++ ":" ++ s.name] else [])) ∧
    (∀ (roleRefKind : String) (s : Subject), s.kind = "ServiceAccount" →
      rbSubjectKeys "Group" s = [] ∧ crbSubjectKeys "Group" roleRefKind s = []) := by
  constructor
  · intro roleRefKind s hag hk hns
    have hne : s.apiGroup ≠ rbacGroup := by rw [hag]; decide
    constructor
    · rw [rbSubjectKeys, if_neg (fun hc => hne hc.1), if_pos ⟨hag, rfl, hk, hns⟩]
    · by_cases hrr : roleRefKind = "ClusterRole"
      · rw [crbSubjectKeys, if_neg (fun hc => hne hc.1),
          if_pos ⟨hag, rfl, hk, hns, hrr⟩, if_pos hrr]
      · rw [crbSubjectKeys, if_neg (fun hc => hne hc.1),
          if_neg (fun hc => hrr hc.2.2.2.2), if_neg hrr]
  · intro roleRefKind s hk
    have hkind : s.kind ≠ "Group" := by rw [hk]; decide
    constructor
    · rw [rbSubjectKeys, if_neg (fun hc => hkind hc.2), if_neg (fun hc => by
        have : ("Group" : String) = "User" := hc.2.1
        exact absurd this (by decide))]
    · rw [crbSubjectKeys, if_neg (fun hc => hkind hc.2.1), if_neg (fun hc => by
        have : ("Group" : String) = "User" := hc.2.1
        exact absurd this (by decide))]

/-- The ServiceAccount subject used by the C7 witness. -/
def saSubject : Subject :=
  { apiGroup := "", kind := "ServiceAccount", name := "sa", ns := "team" }

/-- Witness for amended C7 at a concrete subject, for both RoleRef kinds of a
ClusterRoleBinding and for the Group-kind index. -/
theorem serviceaccount_subject_keys_witness :
    (saSubject.apiGroup = "" ∧ saSubject.kind = "ServiceAccount" ∧ saSubject.ns ≠ "") ∧
    (rbSubjectKeys "User" saSubject = ["serviceaccount:team:sa"] ∧
      crbSubjectKeys "User" "ClusterRole" saSubject = ["serviceaccount:team:sa"] ∧
      crbSubjectKeys "User" "Role" saSubject = []) ∧
    (rbSubjectKeys "Group" saSubject = [] ∧ crbSubjectKeys "Group" "ClusterRole" saSubject = []) := by
  have h1 := serviceaccount_subject_keys.1 "ClusterRole" saSubject rfl rfl (by decide)
  have h2 := serviceaccount_subject_keys.1 "Role" saSubject rfl rfl (by decide)
  have h3 := serviceaccount_subject_keys.2 "ClusterRole" saSubject rfl
  refine ⟨⟨rfl, rfl, by decide⟩, ⟨?_, ?_, ?_⟩, h3⟩
  · exact h1.1
  · simpa using h1.2
  · simpa using h2.2

/-! ## C3: NUL placement in the digest input -/

/-- A User subject named `alice`, shared by several concrete environments. -/
def subAlice : Subject :=
  { apiGroup := rbacGroup, kind := "User", name := "alice", ns := "" }

/-- Environment with one RoleBinding for `alice` in namespace `c` referencing
Role `ab`; every revision token is `r`. -/
def envC3a : Env :=
  { clusterRoles := [], roles := [], crbs := []
    rbs := [{ name := "rb", ns := "c", uid := "u", subjects := [subAlice]
              roleRef := { kind := "Role", name := "ab" } }]
    revision := fun _ _ => "r" }

/-- Environment with one RoleBinding for `alice` in namespace `bc` referencing
Role `a`; every revision token is `r`. -/
def envC3b : Env :=
  { clusterRoles := [], roles := [], crbs := []
    rbs := [{ name := "rb", ns := "bc", uid := "u", subjects := [subAlice]
              roleRef := { kind := "Role", name := "a" } }]
    revision := fun _ _ => "r" }

/-- Counterexample to C3 as stated: the digest input is NOT field-separated by
NUL — a binding writes `name ++ namespace ++ revision ++ NUL` — so the two
different field tuples `("ab","c","r")` and `("a","bc","r")` contribute
byte-identical digest input, and two whole environments differing only in
that tuple produce identical `addRolesToHash` streams. -/
theorem addRolesToHash_field_collision :
    rbRecordBytes "ab" "c" "r" = rbRecordBytes "a" "bc" "r" ∧
    (("ab", "c", "r") : String × String × String) ≠ ("a", "bc", "r") ∧
    addRolesToHashBytes envC3a "User" "alice" = addRolesToHashBytes envC3b "User" "alice" := by
  decide

/-- Splitting at the first NUL: NUL-free words followed by `NUL :: rest` are
uniquely recoverable. -/
theorem append_nul_cancel (w1 : List Char) :
    ∀ (w2 r1 r2 : List Char), nul ∉ w1 → nul ∉ w2 →
      w1 ++ nul :: r1 = w2 ++ nul :: r2 → w1 = w2 ∧ r1 = r2 := by
  induction w1 with
  | nil =>
    intro w2 r1 r2 h1 h2 heq
    cases w2 with
    | nil => simpa using heq
    | cons b bs =>
      simp only [List.nil_append, List.cons_append] at heq
      injection heq with hb _
      exact absurd (by rw [← hb]; exact List.mem_cons_self _ _) h2
  | cons a as ih =>
    intro w2 r1 r2 h1 h2 heq
    cases w2 with
    | nil =>
      simp only [List.cons_append, List.nil_append] at heq
      injection heq with hb _
      exact absurd (by rw [hb]; exact List.mem_cons_self _ _) h1
    | cons b bs =>
      simp only [List.cons_append] at heq
      injection heq with hab ht
      have h1' : nul ∉ as := fun h => h1 (List.mem_cons_of_mem a h)
      have h2' : nul ∉ bs := fun h => h2 (List.mem_cons_of_mem b h)
      obtain ⟨he, hr⟩ := ih bs r1 r2 h1' h2' ht
      exact ⟨by rw [hab, he], hr⟩

/-- Concatenating NUL-terminated NUL-free words is injective in the word
list: the NUL byte recovers the record boundaries. -/
theorem flatMap_nulTerminated_injective (ws1 : List (List Char)) :
    ∀ (ws2 : List (List Char)), (∀ w ∈ ws1, nul ∉ w) → (∀ w ∈ ws2, nul ∉ w) →
      ws1.flatMap (fun w => w ++ [nul]) = ws2.flatMap (fun w => w ++ [nul]) →
      ws1 = ws2 := by
  induction ws1 with
  | nil =>
    intro ws2 h1 h2 heq
    cases ws2 with
    | nil => rfl
    | cons v vs =>
      rw [List.flatMap_nil, List.flatMap_cons] at heq
      exact absurd heq.symm (by simp)
  | cons w ws ih =>
    intro ws2 h1 h2 heq
    cases ws2 with
    | nil =>
      rw [List.flatMap_nil, List.flatMap_cons] at heq
      exact absurd heq (by simp)
    | cons v vs =>
      rw [List.flatMap_cons, List.flatMap_cons, List.append_assoc, List.append_assoc,
        List.singleton_append, List.singleton_append] at heq
      obtain ⟨hw, hrest⟩ := append_nul_cancel w v _ _
        (h1 w (List.mem_cons_self _ _)) (h2 v (List.mem_cons_self _ _)) heq
      have h1' : ∀ x ∈ ws, nul ∉ x := fun x hx => h1 x (List.mem_cons_of_mem w hx)
      have h2' : ∀ x ∈ vs, nul ∉ x := fun x hx => h2 x (List.mem_cons_of_mem v hx)
      rw [hw, ih vs h1' h2' hrest]

/-- `String.data` distributes over append. -/
theorem string_data_append (a b : String) : (a ++ b).data = a.data ++ b.data := by
  cases a
  cases b
  rfl

/-- `String.data` is injective. -/
theorem string_data_injective : Function.Injective String.data := by
  intro a b h
  cases a
  cases b
  exact congrArg String.mk h

/-- C3 (amended): each bound binding contributes its role name, namespace
(role bindings only) and revision concatenated without separator, followed by
a single NUL byte terminating the record.  Distinct field tuples can therefore
contribute identical digest input (see the counterexample), but as long as the
fields themselves contain no NUL byte, the sequence of per-binding field
concatenations is uniquely recoverable from the digest input: the NUL prevents
collisions across record boundaries, not within a record. -/
theorem rbRecords_concat_injective (recs1 recs2 : List (String × String × String))
    (h1 : ∀ r ∈ recs1, nul ∉ (r.1 ++ r.2.1 ++ r.2.2).data)
    (h2 : ∀ r ∈ recs2, nul ∉ (r.1 ++ r.2.1 ++ r.2.2).data)
    (heq : recs1.flatMap (fun r => rbRecordBytes r.1 r.2.1 r.2.2) =
           recs2.flatMap (fun r => rbRecordBytes r.1 r.2.1 r.2.2)) :
    recs1.map (fun r => r.1 ++ r.2.1 ++ r.2.2) = recs2.map (fun r => r.1 ++ r.2.1 ++ r.2.2) := by
  have hrb : ∀ r : String × String × String,
      rbRecordBytes r.1 r.2.1 r.2.2 = (r.1 ++ r.2.1 ++ r.2.2).data ++ [nul] := by
    intro r
    rw [rbRecordBytes, string_data_append, string_data_append, List.append_assoc]
  have hflat : ∀ recs : List (String × String × String),
      recs.flatMap (fun r => rbRecordBytes r.1 r.2.1 r.2.2) =
        (recs.map (fun r => (r.1 ++ r.2.1 ++ r.2.2).data)).flatMap (fun w => w ++ [nul]) := by
    intro recs
    induction recs with
    | nil => rfl
    | cons r rs ihr => rw [List.flatMap_cons, List.map_cons, List.flatMap_cons, hrb, ihr]
  rw [hflat, hflat] at heq
  have hws := flatMap_nulTerminated_injective _ _
    (by intro w hw; rw [List.mem_map] at hw; obtain ⟨r, hr, hwr⟩ := hw; rw [← hwr]; exact h1 r hr)
    (by intro w hw; rw [List.mem_map] at hw; obtain ⟨r, hr, hwr⟩ := hw; rw [← hwr]; exact h2 r hr)
    heq
  have hmm : (recs1.map (fun r => r.1 ++ r.2.1 ++ r.2.2)).map String.data =
      (recs2.map (fun r => r.1 ++ r.2.1 ++ r.2.2)).map String.data := by
    rw [List.map_map, List.map_map]
    exact hws
  exact (List.map_injective_iff.mpr string_data_injective) hmm

/-- Witness for amended C3: the two colliding tuples have NUL-free fields and
equal digest streams, and indeed equal field concatenations. -/
theorem rbRecords_concat_injective_witness :
    (∀ r ∈ ([("ab", "c", "r")] : List (String × String × String)),
      nul ∉ (r.1 ++ r.2.1 ++ r.2.2).data) ∧
    (∀ r ∈ ([("a", "bc", "r")] : List (String × String × String)),
      nul ∉ (r.1 ++ r.2.1 ++ r.2.2).data) ∧
    ([("ab", "c", "r")] : List (String × String × String)).flatMap
        (fun r => rbRecordBytes r.1 r.2.1 r.2.2) =
      ([("a", "bc", "r")] : List (String × String × String)).flatMap
        (fun r => rbRecordBytes r.1 r.2.1 r.2.2) ∧
    ([("ab", "c", "r")] : List (String × String × String)).map
        (fun r => r.1 ++ r.2.1 ++ r.2.2) =
      ([("a", "bc", "r")] : List (String × String × String)).map
        (fun r => r.1 ++ r.2.1 ++ r.2.2) :=
  ⟨by decide, by decide, by decide,
   rbRecords_concat_injective _ _ (by decide) (by decide) (by decide)⟩

/-! ## C5: byte-identical digest input across unordered index results -/

/-- Sorting by a key is strict when the keys on the list are distinct. -/
theorem pairwise_lt_of_le_nodup {α κ : Type} [LinearOrder κ] (key : α → κ) {l : List α}
    (hs : l.Pairwise (fun a b => key a ≤ key b)) (hnd : (l.map key).Nodup) :
    l.Pairwise (fun a b => key a < key b) := by
  have hne : l.Pairwise (fun a b => key a ≠ key b) := List.pairwise_map.mp hnd
  exact (hs.and hne).imp (fun h => lt_of_le_of_ne h.1 h.2)

/-- Two permuted lists, both sorted by a key that is duplicate-free on them,
are equal: the sorted order is unique. -/
theorem sorted_perm_eq_of_key_nodup {α κ : Type} [LinearOrder κ] (key : α → κ)
    {l₁ l₂ : List α} (hp : l₁.Perm l₂)
    (h₁ : l₁.Pairwise (fun a b => key a ≤ key b))
    (h₂ : l₂.Pairwise (fun a b => key a ≤ key b))
    (hnd : (l₁.map key).Nodup) : l₁ = l₂ := by
  have hnd₂ : (l₂.map key).Nodup := ((hp.map key).nodup_iff).mp hnd
  have s₁ := pairwise_lt_of_le_nodup key h₁ hnd
  have s₂ := pairwise_lt_of_le_nodup key h₂ hnd₂
  haveI : IsAntisymm α (fun a b => key a < key b) :=
    ⟨fun a b hab hba => absurd hba (not_lt.mpr (le_of_lt hab))⟩
  exact List.eq_of_perm_of_sorted hp s₁ s₂

/-- Sorting the filtered contents of a permuted list by a duplicate-free key
yields the same list: the model of `sort.Slice` after an unordered
`GetByIndex` query. -/
theorem insertionSort_filter_perm_eq {α κ : Type} [LinearOrder κ] (key : α → κ)
    (p : α → Bool) {l l' : List α} (hp : l'.Perm l)
    (hnd : ((l.filter p).map key).Nodup) :
    List.insertionSort (fun a b => key a ≤ key b) (l'.filter p) =
      List.insertionSort (fun a b => key a ≤ key b) (l.filter p) := by
  haveI : IsTotal α (fun a b => key a ≤ key b) := ⟨fun a b => le_total (key a) (key b)⟩
  haveI : IsTrans α (fun a b => key a ≤ key b) := ⟨fun a b c h1 h2 => le_trans h1 h2⟩
  have hfp : (l'.filter p).Perm (l.filter p) := hp.filter p
  have hperm : (List.insertionSort (fun a b => key a ≤ key b) (l'.filter p)).Perm
      (List.insertionSort (fun a b => key a ≤ key b) (l.filter p)) :=
    ((List.perm_insertionSort _ _).trans hfp).trans (List.perm_insertionSort _ _).symm
  have hnd₁ : ((List.insertionSort (fun a b => key a ≤ key b) (l'.filter p)).map key).Nodup :=
    (((List.perm_insertionSort _ _).trans hfp).map key).nodup_iff.mpr hnd
  exact sorted_perm_eq_of_key_nodup key hperm
    (List.sorted_insertionSort _ _) (List.sorted_insertionSort _ _) hnd₁

/-- C5: against unchanged binding and revision data, `addRolesToHash` writes
byte-identical digest input no matter in what order the index queries return
the matching bindings (`env'` holds the same bindings as `env`, permuted), as
long as the chosen sort keys — ClusterRoleBinding names, RoleBinding UIDs —
are duplicate-free among the matching bindings; moreover the
ClusterRoleBindings are visited sorted by binding name and the RoleBindings
sorted by UID (the ClusterRoleBinding block precedes the RoleBinding block by
definition of `addRolesToHashBytes`). -/
theorem addRolesToHash_deterministic (env env' : Env) (kind subj : String)
    (hcrbs : env'.crbs.Perm env.crbs) (hrbs : env'.rbs.Perm env.rbs)
    (hrev : env'.revision = env.revision)
    (hnd1 : ((env.crbs.filter
        (fun crb => (clusterRoleBindingBySubjectIndexer kind crb).contains subj)).map
        ClusterRoleBinding.name).Nodup)
    (hnd2 : ((env.rbs.filter
        (fun rb => (roleBindingBySubject kind rb).contains subj)).map
        RoleBinding.uid).Nodup) :
    addRolesToHashBytes env' kind subj = addRolesToHashBytes env kind subj ∧
    (getClusterRoleBindings env kind subj).Pairwise (fun a b => a.name ≤ b.name) ∧
    (getRoleBindings env kind subj).Pairwise (fun a b => a.uid ≤ b.uid) := by
  haveI : IsTotal ClusterRoleBinding (fun a b => a.name ≤ b.name) :=
    ⟨fun a b => le_total a.name b.name⟩
  haveI : IsTrans ClusterRoleBinding (fun a b => a.name ≤ b.name) :=
    ⟨fun a b c h1 h2 => le_trans h1 h2⟩
  haveI : IsTotal RoleBinding (fun a b => a.uid ≤ b.uid) :=
    ⟨fun a b => le_total a.uid b.uid⟩
  haveI : IsTrans RoleBinding (fun a b => a.uid ≤ b.uid) :=
    ⟨fun a b c h1 h2 => le_trans h1 h2⟩
  have hc : getClusterRoleBindings env' kind subj = getClusterRoleBindings env kind subj := by
    unfold getClusterRoleBindings
    exact insertionSort_filter_perm_eq ClusterRoleBinding.name _ hcrbs hnd1
  have hb : getRoleBindings env' kind subj = getRoleBindings env kind subj := by
    unfold getRoleBindings
    exact insertionSort_filter_perm_eq RoleBinding.uid _ hrbs hnd2
  refine ⟨?_, List.sorted_insertionSort _ _, List.sorted_insertionSort _ _⟩
  simp only [addRolesToHashBytes, rbRevisionOf, hc, hb, hrev]

/-- A ClusterRoleBinding granting `roleA` to user `alice`. -/
def crbA : ClusterRoleBinding :=
  { name := "crb-a", subjects := [subAlice], roleRef := { kind := "ClusterRole", name := "roleA" } }

/-- A ClusterRoleBinding granting `roleB` to user `alice`. -/
def crbB : ClusterRoleBinding :=
  { name := "crb-b", subjects := [subAlice], roleRef := { kind := "ClusterRole", name := "roleB" } }

/-- A RoleBinding for `alice` in namespace `team`, UID `uid1`. -/
def rbOne : RoleBinding :=
  { name := "rb-1", ns := "team", uid := "uid1", subjects := [subAlice]
    roleRef := { kind := "Role", name := "r1" } }

/-- A RoleBinding for `alice` in namespace `team`, UID `uid2`. -/
def rbTwo : RoleBinding :=
  { name := "rb-2", ns := "team", uid := "uid2", subjects := [subAlice]
    roleRef := { kind := "Role", name := "r2" } }

/-- Concrete environment for the C5 witness. -/
def envC5 : Env :=
  { clusterRoles := [], roles := [], crbs := [crbA, crbB], rbs := [rbOne, rbTwo]
    revision := fun _ _ => "v1" }

/-- The same data as `envC5` with both binding lists permuted. -/
def envC5r : Env :=
  { clusterRoles := [], roles := [], crbs := [crbB, crbA], rbs := [rbTwo, rbOne]
    revision := fun _ _ => "v1" }

/-- Witness for C5 at a concrete permuted environment. -/
theorem addRolesToHash_deterministic_witness :
    envC5r.crbs.Perm envC5.crbs ∧ envC5r.rbs.Perm envC5.rbs ∧
    addRolesToHashBytes envC5r "User" "alice" = addRolesToHashBytes envC5 "User" "alice" ∧
    (getClusterRoleBindings envC5 "User" "alice").Pairwise (fun a b => a.name ≤ b.name) ∧
    (getRoleBindings envC5 "User" "alice").Pairwise (fun a b => a.uid ≤ b.uid) :=
  ⟨by decide, by decide,
   addRolesToHash_deterministic envC5 envC5r "User" "alice"
     (by decide) (by decide) rfl (by decide) (by decide)⟩

/-! ## C2: group order and the cache key -/

/-- A ClusterRoleBinding granting `roleA` to group `a`. -/
def crbGroupA : ClusterRoleBinding :=
  { name := "crb-ga"
    subjects := [{ apiGroup := rbacGroup, kind := "Group", name := "a", ns := "" }]
    roleRef := { kind := "ClusterRole", name := "roleA" } }

/-- A ClusterRoleBinding granting `roleB` to group `b`. -/
def crbGroupB : ClusterRoleBinding :=
  { name := "crb-gb"
    subjects := [{ apiGroup := rbacGroup, kind := "Group", name := "b", ns := "" }]
    roleRef := { kind := "ClusterRole", name := "roleB" } }

/-- Environment in which groups `a` and `b` are bound to different roles. -/
def envC2 : Env :=
  { clusterRoles := [], roles := [], crbs := [crbGroupA, crbGroupB], rbs := []
    revision := fun _ _ => "" }

/-- C2 fails on the code: `CacheKey` (access_store.go lines 197-212) hashes
the groups in the order `user.GetGroups()` presents them — the sorted copy it
builds is dead code (`copy` into a zero-length slice, and the loop ranges over
`user.GetGroups()` rather than the copy) — so the same identity with the same
set of groups listed in different orders gets different digest input, hence a
different cache key.  The spec and the sibling `CacheKey` variants in the
repository sort the groups first; this theorem evaluates the code at the
failing input. -/
theorem cacheKey_group_order_sensitive :
    (["a", "b"] : List String).Perm ["b", "a"] ∧
    cacheKeyBytes envC2 { name := "u", groups := ["a", "b"] } ≠
      cacheKeyBytes envC2 { name := "u", groups := ["b", "a"] } := by
  decide

/-! ## Cache-state lemmas -/

/-- After `Remove k`, key `k` is gone. -/
theorem cacheGet_cacheRemove_self (c : List (CKey × CacheVal × Nat)) (k : CKey) :
    cacheGet (cacheRemove c k) k = none := by
  induction c with
  | nil => rfl
  | cons e rest ih =>
    by_cases h : e.1 = k
    · simp only [cacheRemove, if_pos h]
      exact ih
    · simp only [cacheRemove, if_neg h, cacheGet]
      exact ih

/-- `Remove k` leaves other keys untouched. -/
theorem cacheGet_cacheRemove_ne (c : List (CKey × CacheVal × Nat)) (k k' : CKey)
    (h : k' ≠ k) : cacheGet (cacheRemove c k) k' = cacheGet c k' := by
  induction c with
  | nil => rfl
  | cons e rest ih =>
    by_cases he : e.1 = k
    · simp only [cacheRemove, if_pos he, cacheGet]
      rw [ih, if_neg (fun hh : e.1 = k' => h (hh ▸ he))]
    · simp only [cacheRemove, if_neg he, cacheGet]
      by_cases he' : e.1 = k'
      · rw [if_pos he', if_pos he']
      · rw [if_neg he', if_neg he']
        exact ih

/-- After `Add k v ttl`, key `k` holds `(v, ttl)`. -/
theorem cacheGet_cacheAdd_self (c : List (CKey × CacheVal × Nat)) (k : CKey)
    (v : CacheVal) (ttl : Nat) : cacheGet (cacheAdd c k v ttl) k = some (v, ttl) := by
  simp [cacheAdd, cacheGet]

/-- `Add k v ttl` leaves other keys untouched. -/
theorem cacheGet_cacheAdd_ne (c : List (CKey × CacheVal × Nat)) (k : CKey)
    (v : CacheVal) (ttl : Nat) (k' : CKey) (h : k' ≠ k) :
    cacheGet (cacheAdd c k v ttl) k' = cacheGet c k' := by
  simp only [cacheAdd, cacheGet]
  rw [if_neg (fun hh : k = k' => h hh.symm), cacheGet_cacheRemove_ne c k k' h]

/-- After `userKeys[n] = k`, reading `n` yields `k`. -/
theorem mapGet_mapSet_self (m : List (String × CKey)) (n : String) (k : CKey) :
    mapGet (mapSet m n k) n = some k := by
  simp [mapSet, mapGet]

/-! ## C1: cache-miss path of `AccessFor` -/

/-- C1: on a cache miss with caching enabled, `AccessFor` returns the computed
merged AccessSet with its `ID` stamped with the cache key; it stores that set
in the cache under the key with the 24-hour TTL and records the key in the
invalidation map; if a different key was previously recorded for the identity,
the entry under that old key is no longer retrievable afterwards; and every
cache entry under a key other than the new one and the identity's previously
recorded one is untouched (entries of unrelated identities remain intact). -/
theorem accessFor_miss (env : Env) (st : StoreState) (u : UserInfo)
    (hmiss : cacheGet st.cache (cacheKeyBytes env u) = none) :
    ∃ r : AccessSet,
      (accessForCached env st u).1 = some r ∧
      r.ID = cacheKeyBytes env u ∧
      r.grants = (computeAccessSet env u).grants ∧
      cacheGet (accessForCached env st u).2.cache (cacheKeyBytes env u) =
        some (CacheVal.accessSet r, hours24) ∧
      mapGet (accessForCached env st u).2.userKeys u.name = some (cacheKeyBytes env u) ∧
      (∀ prevKey, mapGet st.userKeys u.name = some prevKey →
        prevKey ≠ cacheKeyBytes env u →
        cacheGet (accessForCached env st u).2.cache prevKey = none) ∧
      (∀ k', k' ≠ cacheKeyBytes env u → mapGet st.userKeys u.name ≠ some k' →
        cacheGet (accessForCached env st u).2.cache k' = cacheGet st.cache k') := by
  refine ⟨{ computeAccessSet env u with ID := cacheKeyBytes env u },
    ?_, rfl, rfl, ?_, ?_, ?_, ?_⟩
  · simp only [accessForCached, hmiss]
  · simp only [accessForCached, hmiss]
    exact cacheGet_cacheAdd_self _ _ _ _
  · simp only [accessForCached, hmiss]
    exact mapGet_mapSet_self _ _ _
  · intro prevKey hp hne
    simp only [accessForCached, hmiss, hp]
    rw [if_neg hne, cacheGet_cacheAdd_ne _ _ _ _ _ hne]
    exact cacheGet_cacheRemove_self _ _
  · intro k' hk hmne
    simp only [accessForCached, hmiss]
    cases hmg : mapGet st.userKeys u.name with
    | none =>
      simp only [hmg]
      exact cacheGet_cacheAdd_ne _ _ _ _ _ hk
    | some p =>
      simp only [hmg]
      by_cases hpk : p = cacheKeyBytes env u
      · rw [if_pos hpk]
        exact cacheGet_cacheAdd_ne _ _ _ _ _ hk
      · rw [if_neg hpk, cacheGet_cacheAdd_ne _ _ _ _ _ hk]
        exact cacheGet_cacheRemove_ne _ _ _ (fun hh : k' = p => hmne (hh ▸ hmg))

/-- The empty environment: no roles, no bindings, every revision empty. -/
def envNil : Env :=
  { clusterRoles := [], roles := [], crbs := [], rbs := [], revision := fun _ _ => "" }

/-- An identity with no groups, used by the C1 and C4 witnesses. -/
def uPlain : UserInfo := { name := "u", groups := [] }

/-- Store state for the C1 witness: the identity `u` has key `['x']` recorded
and cached, and an unrelated entry under `['y']` is present; the key computed
for `u` in `envNil` is `[]`, so the next call misses. -/
def stPrev : StoreState :=
  { cache := [(['x'], CacheVal.accessSet {}, 5), (['y'], CacheVal.accessSet {}, 6)]
    userKeys := [("u", ['x'])] }

/-- Witness for C1: a concrete miss where a different previous key was
recorded; the old entry is evicted, the unrelated entry under `['y']` is
intact. -/
theorem accessFor_miss_witness :
    cacheGet stPrev.cache (cacheKeyBytes envNil uPlain) = none ∧
    mapGet stPrev.userKeys uPlain.name = some ['x'] ∧
    (['x'] : CKey) ≠ cacheKeyBytes envNil uPlain ∧
    (['y'] : CKey) ≠ cacheKeyBytes envNil uPlain ∧
    mapGet stPrev.userKeys uPlain.name ≠ some ['y'] ∧
    (∃ r : AccessSet,
      (accessForCached envNil stPrev uPlain).1 = some r ∧
      r.ID = cacheKeyBytes envNil uPlain ∧
      r.grants = (computeAccessSet envNil uPlain).grants ∧
      cacheGet (accessForCached envNil stPrev uPlain).2.cache (cacheKeyBytes envNil uPlain) =
        some (CacheVal.accessSet r, hours24) ∧
      mapGet (accessForCached envNil stPrev uPlain).2.userKeys uPlain.name =
        some (cacheKeyBytes envNil uPlain) ∧
      (∀ prevKey, mapGet stPrev.userKeys uPlain.name = some prevKey →
        prevKey ≠ cacheKeyBytes envNil uPlain →
        cacheGet (accessForCached envNil stPrev uPlain).2.cache prevKey = none) ∧
      (∀ k', k' ≠ cacheKeyBytes envNil uPlain →
        mapGet stPrev.userKeys uPlain.name ≠ some k' →
        cacheGet (accessForCached envNil stPrev uPlain).2.cache k' =
          cacheGet stPrev.cache k')) :=
  ⟨by decide, by decide, by decide, by decide, by decide,
   accessFor_miss envNil stPrev uPlain (by decide)⟩

/-! ## C4: cache hit with a value of the wrong type -/

/-- Store state for C4: the entry under the key computed for `u` in `envNil`
(the empty stream) holds a value that is not an `*AccessSet`. -/
def stOther : StoreState :=
  { cache := [([], CacheVal.other, 7)], userKeys := [] }

/-- Counterexample to C4 as stated: on a hit whose stored value is not an
AccessSet, `AccessFor` does NOT recompute — the type assertion
`as, _ := val.(*AccessSet)` yields the nil pointer and the function returns it
unchanged (state untouched), instead of the recomputed merged AccessSet. -/
theorem accessFor_type_mismatch_returns_nil :
    cacheGet stOther.cache (cacheKeyBytes envNil uPlain) = some (CacheVal.other, 7) ∧
    accessForCached envNil stOther uPlain = (none, stOther) ∧
    (none : Option AccessSet) ≠
      some { computeAccessSet envNil uPlain with ID := cacheKeyBytes envNil uPlain } := by
  decide

/-- C4 (amended): when the cache lookup for the computed key hits but the
stored value is not an AccessSet, `AccessFor` returns the nil result of the
failed type assertion without recomputing and without modifying the store. -/
theorem accessFor_hit_type_mismatch (env : Env) (st : StoreState) (u : UserInfo)
    (ttl : Nat)
    (h : cacheGet st.cache (cacheKeyBytes env u) = some (CacheVal.other, ttl)) :
    accessForCached env st u = (none, st) := by
  simp only [accessForCached, h]

/-- Witness for amended C4 at the concrete mismatching store. -/
theorem accessFor_hit_type_mismatch_witness :
    cacheGet stOther.cache (cacheKeyBytes envNil uPlain) = some (CacheVal.other, 7) ∧
    accessForCached envNil stOther uPlain = (none, stOther) :=
  ⟨by decide, accessFor_hit_type_mismatch envNil stOther uPlain 7 (by decide)⟩

end Steve
